import Mathlib

/-!
Shallow embedding of the flight-animation densification engine of
`src/app.py` (the `update_graph` callback and its helper
`calculate_bearing`), together with theorems settling the specification
claims about it.

Modelling conventions:
* timestamps are rational numbers of seconds since an arbitrary epoch
  (pandas datetimes are exact instants; `pd.date_range` spacing is
  idealized to exact rational arithmetic);
* coordinates are rational numbers; the bearing computation, which uses
  floating-point trigonometry in the source, is idealized over the reals;
* a pandas DataFrame of flight rows is a `List Flight`;
* the Python `int()` truncation is `py_int`; the float `%` with a
  positive modulus is `fmod`.
-/

attribute [local semireducible] Rat.add Rat.mul Rat.sub Rat.inv Rat.ofScientific

/-- One row of the uploaded flight table, after the
`pd.to_datetime` conversions of app.py lines 100-101. -/
structure Flight where
  flight_id : String
  origin_code : String
  origin_lat : ℚ
  origin_lon : ℚ
  destination_code : String
  dest_lat : ℚ
  dest_lon : ℚ
  departure_time : ℚ
  arrival_time : ℚ
  deriving DecidableEq, Repr

/-- Python `int()` applied to a real-valued quantity: truncation toward
zero (floor for nonnegative arguments, ceiling for negative ones),
written as the truncating integer division of numerator by denominator. -/
def py_int (q : ℚ) : ℤ :=
  q.num.tdiv q.den

/-- Embeds `df['departure_time'].min()` (app.py line 102): `none` models
the `NaT` produced on an empty column. -/
def min_departure (fs : List Flight) : Option ℚ :=
  match fs with
  | [] => none
  | f :: rest => some ((rest.map Flight.departure_time).foldl min f.departure_time)

/-- Embeds `df['arrival_time'].max()` (app.py line 103). -/
def max_arrival (fs : List Flight) : Option ℚ :=
  match fs with
  | [] => none
  | f :: rest => some ((rest.map Flight.arrival_time).foldl max f.arrival_time)

/-- Embeds `total_hours = (end_time - start_time).total_seconds() / 3600`
(app.py line 104). -/
def total_hours (s e : ℚ) : ℚ := (e - s) / 3600

/-- Embeds `total_frames = max(int(total_hours * frames_per_hour), 1)`
(app.py line 105). -/
def total_frames (s e : ℚ) (fph : ℕ) : ℕ :=
  (max (py_int (total_hours s e * fph)) 1).toNat

/-- Embeds `pd.date_range(start=s, end=e, periods=n)` (app.py line 106):
`n` evenly spaced instants; for `n = 1` only the start is produced. -/
def date_range (s e : ℚ) (n : ℕ) : List ℚ :=
  if n = 0 then []
  else if n = 1 then [s]
  else (List.range n).map (fun i : ℕ => s + (e - s) * (i : ℚ) / ((n : ℚ) - 1))

/-- The `animation_timestamps` of app.py lines 102-106 for a flight list
and a slider density; `[]` only in the empty-input failure path. -/
def animation_timestamps (fs : List Flight) (fph : ℕ) : List ℚ :=
  match min_departure fs, max_arrival fs with
  | some s, some e => date_range s e (total_frames s e fph)
  | _, _ => []

/-- Embeds the activity test of app.py line 111:
`flight['departure_time'] <= timestamp <= flight['arrival_time']`. -/
def is_active (f : Flight) (t : ℚ) : Bool :=
  decide (f.departure_time ≤ t) && decide (t ≤ f.arrival_time)

/-- Embeds `flight_duration` (app.py line 112), in seconds. -/
def flight_duration (f : Flight) : ℚ := f.arrival_time - f.departure_time

/-- Embeds `progress_ratio = time_elapsed / flight_duration if
flight_duration > 0 else 0` (app.py lines 113-114). -/
def progress_ratio (f : Flight) (t : ℚ) : ℚ :=
  if flight_duration f > 0 then (t - f.departure_time) / flight_duration f else 0

/-- Embeds `current_lat` (app.py line 115). -/
def current_lat (f : Flight) (t : ℚ) : ℚ :=
  f.origin_lat + (f.dest_lat - f.origin_lat) * progress_ratio f t

/-- Embeds `current_lon` (app.py line 116). -/
def current_lon (f : Flight) (t : ℚ) : ℚ :=
  f.origin_lon + (f.dest_lon - f.origin_lon) * progress_ratio f t

/-- One element of `densified_data` (app.py lines 117-123). -/
structure FramePoint where
  flight_id : String
  origin_code : String
  frame : ℚ
  current_lat : ℚ
  current_lon : ℚ
  deriving DecidableEq, Repr

/-- The record appended for an active flight at a timestamp
(app.py lines 117-123). -/
def mk_frame_point (f : Flight) (t : ℚ) : FramePoint :=
  ⟨f.flight_id, f.origin_code, t, current_lat f t, current_lon f t⟩

/-- Embeds the densification double loop of app.py lines 108-123:
timestamps outer, flight rows inner, one record per active pair. -/
def densified_data (fs : List Flight) (ts : List ℚ) : List FramePoint :=
  ts.flatMap (fun t => (fs.filter (fun f => is_active f t)).map (fun f => mk_frame_point f t))

/-- First-appearance deduplication with an accumulator of already seen
elements; embeds the semantics of `pd.unique` on a raveled column
(app.py line 132): keep each value the first time it occurs. -/
def dedup_from {α : Type} [DecidableEq α] : List α → List α → List α
  | _, [] => []
  | seen, x :: xs =>
    if x ∈ seen then dedup_from seen xs else x :: dedup_from (x :: seen) xs

/-- Distinct values of a list in order of first appearance. -/
def dedup_first {α : Type} [DecidableEq α] (l : List α) : List α :=
  dedup_from [] l

/-- Embeds `pd.unique(df[['origin_code', 'destination_code']].values.ravel('K'))`
(app.py line 132): `DataFrame.values` is Fortran-contiguous (the
transpose of the column-block storage), so `ravel('K')` reads memory
order, column by column: all origin codes in row order first, then all
destination codes. -/
def all_airports (fs : List Flight) : List String :=
  dedup_first (fs.map Flight.origin_code ++ fs.map Flight.destination_code)

/-- The fixed palette `bright_colors` of app.py lines 133-137. -/
def bright_colors : List String :=
  ["#FF6B6B", "#4ECDC4", "#45B7D1", "#96CEB4", "#FFEAA7",
   "#DDA0DD", "#98D8C8", "#F7DC6F", "#BB8FCE", "#85C1E9",
   "#F8C471", "#82E0AA", "#F1948A", "#85C1E9", "#D7BDE2"]

/-- Embeds the dict comprehension
`airport_colors = {airport: bright_colors[i % len(bright_colors)] for i, airport in enumerate(all_airports)}`
(app.py line 138), read back as a lookup: the enumeration index of a code
is its position in the first-appearance list. -/
def airport_colors (fs : List Flight) (code : String) : Option String :=
  ((all_airports fs).findIdx? (fun c => c == code)).map
    (fun i => bright_colors.getD (i % bright_colors.length) "")

/-- One row of `all_airport_locations` (app.py lines 140-144). -/
structure AirportLoc where
  code : String
  lat : ℚ
  lon : ℚ
  deriving DecidableEq, Repr

/-- Keeps the first row for each code; embeds
`drop_duplicates(subset='code')` (app.py line 144). -/
def dedup_by_code : List String → List AirportLoc → List AirportLoc
  | _, [] => []
  | seen, a :: rest =>
    if a.code ∈ seen then dedup_by_code seen rest
    else a :: dedup_by_code (a.code :: seen) rest

/-- Embeds app.py lines 140-144: origin rows then destination rows,
deduplicated by code with the first occurrence winning. -/
def all_airport_locations (fs : List Flight) : List AirportLoc :=
  dedup_by_code []
    ((fs.map (fun f => AirportLoc.mk f.origin_code f.origin_lat f.origin_lon)) ++
     (fs.map (fun f => AirportLoc.mk f.destination_code f.dest_lat f.dest_lon)))

/-- Embeds `airport_marker_colors = [airport_colors.get(code) for code in all_airport_locations['code']]`
(app.py line 187): the static layer's marker colors, parallel to the
deduplicated airport rows. -/
def airport_marker_colors (fs : List Flight) : List (Option String) :=
  (all_airport_locations fs).map (fun a => airport_colors fs a.code)

/-- Embeds the color applied to each animated frame point,
`frame_df['origin_code'].map(airport_colors)` (app.py lines 178 and 216). -/
def point_color (fs : List Flight) (p : FramePoint) : Option String :=
  airport_colors fs p.origin_code

/-- Embeds `math.radians` (app.py line 148). -/
noncomputable def radians (d : ℝ) : ℝ := d * (Real.pi / 180)

/-- Embeds `math.degrees` (app.py line 153). -/
noncomputable def to_degrees (r : ℝ) : ℝ := r * (180 / Real.pi)

/-- Embeds `math.atan2(y, x)`: the argument of the complex number
`x + y*i`, in `(-pi, pi]`, with `atan2 0 0 = 0`. -/
noncomputable def atan2 (y x : ℝ) : ℝ := Complex.arg ((x : ℂ) + (y : ℂ) * Complex.I)

/-- Embeds the Python float `%` for a positive modulus (app.py line 154):
`a - b * floor(a / b)`, the representative of `a` modulo `b` in `[0, b)`. -/
noncomputable def fmod (a b : ℝ) : ℝ := a - b * ⌊a / b⌋

/-- Embeds `calculate_bearing` (app.py lines 146-155), idealizing the
floating-point trigonometry over the reals. -/
noncomputable def calculate_bearing (lat1 lon1 lat2 lon2 : ℝ) : ℝ :=
  let rlat1 := radians lat1
  let rlon1 := radians lon1
  let rlat2 := radians lat2
  let rlon2 := radians lon2
  let dlon := rlon2 - rlon1
  let y := Real.sin dlon * Real.cos rlat2
  let x := Real.cos rlat1 * Real.sin rlat2 - Real.sin rlat1 * Real.cos rlat2 * Real.cos dlon
  fmod (to_degrees (atan2 y x) + 360) 360

/-- Embeds the dict comprehension building `bearing_map` keyed by
`flight_id` (app.py line 157): in a Python dict the last row with a given
key wins, hence the reversed search. -/
noncomputable def bearing_map (fs : List Flight) (fid : String) : Option ℝ :=
  (fs.reverse.find? (fun f => f.flight_id == fid)).map
    (fun f => calculate_bearing f.origin_lat f.origin_lon f.dest_lat f.dest_lon)

/-- Embeds `densified_df['bearing'] = densified_df['flight_id'].map(bearing_map)`
(app.py line 158). -/
noncomputable def point_bearing (fs : List Flight) (p : FramePoint) : Option ℝ :=
  bearing_map fs p.flight_id

/-- One animation frame (app.py lines 204-227): its position in the
frame list (`name=str(i)`), the timestamp it samples, and the frame
points shown in it. -/
structure FrameData where
  index : ℕ
  timestamp : ℚ
  points : List FramePoint
  deriving DecidableEq, Repr

/-- Embeds `densified_df['Frame'].unique()` (app.py line 205): distinct
frame timestamps in order of first appearance. -/
def unique_frame_stamps (dens : List FramePoint) : List ℚ :=
  dedup_first (dens.map FramePoint.frame)

/-- Embeds the frame-building loop of app.py lines 204-227: one frame
per distinct densified timestamp, holding the rows filtered to it. -/
def build_frames (dens : List FramePoint) : List FrameData :=
  (unique_frame_stamps dens).enum.map
    (fun p => FrameData.mk p.1 p.2 (dens.filter (fun q => q.frame == p.2)))

/-- Two-digit decimal rendering of a small nonnegative integer, as in
`strftime` fields. -/
def pad2 (n : ℤ) : String := (if n < 10 then "0" else "") ++ toString n

/-- Embeds `.strftime('%H:%M')` (app.py line 235) on a timestamp given
in seconds: hour-of-day and minute fields. -/
def format_hm (t : ℚ) : String :=
  pad2 ((t.floor / 3600) % 24) ++ ":" ++ pad2 ((t.floor % 3600) / 60)

/-- Embeds the slider-step labels of app.py lines 232-237: step `i`
(one per frame) is labeled with `animation_timestamps[i]`, indexed by
frame position, not by the frame's own timestamp. -/
def slider_labels (ts : List ℚ) (n : ℕ) : List String :=
  (List.range n).map (fun i => format_hm (ts.getD i 0))

/-- The outcome of the `update_graph` callback on a parsed flight table:
the generic exception branch of app.py lines 269-275, the empty-window
message of lines 125-127, or the figure with its frames and slider
labels. -/
inductive GraphResult where
  | errorMessage (msg : String)
  | noFlightsFound
  | graph (frames : List FrameData) (labels : List String)
  deriving DecidableEq

/-- Embeds the core of the `update_graph` callback (app.py lines
99-267) on an already parsed flight table. On an empty table,
`min()`/`max()` yield `NaT`, `total_seconds()` yields `nan`, and
`int(nan)` raises `ValueError: cannot convert float NaN to integer`,
which the handler of lines 269-275 renders as a generic error box. -/
def update_graph (fs : List Flight) (fph : ℕ) : GraphResult :=
  match min_departure fs, max_arrival fs with
  | some s, some e =>
    let ts := date_range s e (total_frames s e fph)
    let dens := densified_data fs ts
    if dens.isEmpty then GraphResult.noFlightsFound
    else
      let frames := build_frames dens
      GraphResult.graph frames (slider_labels ts frames.length)
  | _, _ => GraphResult.errorMessage "cannot convert float NaN to integer"

/-- Whether the callback produced a figure. -/
def is_graph : GraphResult → Bool
  | GraphResult.graph _ _ => true
  | _ => false

/-- Total number of interpolated rows produced for an input, the measure
of the output size of the densification loop. -/
def total_frame_points (fs : List Flight) (fph : ℕ) : ℕ :=
  (densified_data fs (animation_timestamps fs fph)).length

/-- Concrete flight taken from the template row of app.py lines 306-313:
departure 07:00:00 (25200 s), arrival 09:05:00 (32700 s). -/
def exampleFlight : Flight :=
  ⟨"EX101", "DEL", 28.5665, 77.1031, "BOM", 19.0896, 72.8656, 25200, 32700⟩

/-- Concrete flight with a one-minute window, shorter than one frame
period at 30 frames per hour. -/
def shortFlight : Flight :=
  ⟨"S1", "AAA", 0, 0, "BBB", 1, 1, 0, 60⟩

lemma py_int_eq_floor (q : ℚ) (hq : 0 ≤ q) : py_int q = ⌊q⌋ := by
  rw [py_int, Int.tdiv_eq_ediv (Rat.num_nonneg.2 hq) (Int.natCast_nonneg _), Rat.floor_def]

lemma max_py_int_one (q : ℚ) : max (py_int q) 1 = max ⌊q⌋ 1 := by
  rcases le_or_lt 0 q with h | h
  · rw [py_int_eq_floor q h]
  · have h1 : py_int q ≤ 0 := by
      have hnum : 0 ≤ -q.num := by
        have := Rat.num_neg.2 h
        omega
      have h0 : 0 ≤ (-q.num).tdiv q.den := Int.tdiv_nonneg hnum (Int.natCast_nonneg _)
      rw [Int.neg_tdiv] at h0
      rw [py_int]
      omega
    have h2 : ⌊q⌋ ≤ 0 := Int.floor_nonpos h.le
    omega

lemma total_frames_cast (s e : ℚ) (fph : ℕ) :
    (total_frames s e fph : ℤ) = max ⌊total_hours s e * fph⌋ 1 := by
  rw [total_frames, Int.toNat_of_nonneg (by omega), max_py_int_one]

lemma one_le_total_frames (s e : ℚ) (fph : ℕ) : 1 ≤ total_frames s e fph := by
  have := total_frames_cast s e fph
  omega

lemma date_range_length (s e : ℚ) (n : ℕ) : (date_range s e n).length = n := by
  unfold date_range
  split
  · next h => simp [h]
  · split
    · next h => simp [h]
    · simp

lemma date_range_getD (s e : ℚ) (n : ℕ) (h2 : 2 ≤ n) (i : ℕ) (hi : i < n) :
    (date_range s e n).getD i 0 = s + (e - s) * i / ((n : ℚ) - 1) := by
  unfold date_range
  rw [if_neg (by omega), if_neg (by omega)]
  have hlen : i < ((List.range n).map (fun j : ℕ => s + (e - s) * (j : ℚ) / ((n : ℚ) - 1))).length := by
    simpa using hi
  rw [List.getD_eq_getElem _ _ hlen, List.getElem_map, List.getElem_range]

lemma date_range_getD_zero (s e : ℚ) (n : ℕ) (h : 1 ≤ n) :
    (date_range s e n).getD 0 0 = s := by
  rcases eq_or_lt_of_le h with h1 | h2
  · unfold date_range
    rw [if_neg (by omega), if_pos h1.symm]
    rfl
  · rw [date_range_getD s e n (by omega) 0 (by omega)]
    push_cast
    ring

lemma date_range_getD_last (s e : ℚ) (n : ℕ) (h2 : 2 ≤ n) :
    (date_range s e n).getD (n - 1) 0 = e := by
  rw [date_range_getD s e n h2 (n - 1) (by omega)]
  have hn : ((n : ℚ) - 1) ≠ 0 := by
    have h : (2 : ℚ) ≤ (n : ℚ) := by exact_mod_cast h2
    linarith
  rw [Nat.cast_sub (by omega : 1 ≤ n)]
  push_cast
  rw [mul_div_assoc, div_self hn, mul_one]
  ring

lemma date_range_one (s e : ℚ) : date_range s e 1 = [s] := rfl

lemma animation_timestamps_eq (fs : List Flight) (fph : ℕ) (s e : ℚ)
    (hs : min_departure fs = some s) (he : max_arrival fs = some e) :
    animation_timestamps fs fph = date_range s e (total_frames s e fph) := by
  unfold animation_timestamps
  rw [hs, he]

/-- C1 (amended): for a non-empty flight collection with global minimum
departure `s` and global maximum arrival `e`, the frame count is
`max(floor(windowHours * framesPerHour), 1)`, and the timeline has
exactly that many timestamps, evenly spaced, starting at `s`; both
endpoints are present whenever the frame count is at least 2, while a
frame count of 1 (in particular whenever `s = e`) yields the single
timestamp `s` (the end is then absent unless `s = e`); the worked
example yields 62 frames. -/
theorem timeline_generation_C1 (fs : List Flight) (fph : ℕ) (s e : ℚ)
    (hs : min_departure fs = some s) (he : max_arrival fs = some e) :
    ((total_frames s e fph : ℤ) = max ⌊total_hours s e * fph⌋ 1
      ∧ animation_timestamps fs fph = date_range s e (total_frames s e fph)
      ∧ (animation_timestamps fs fph).length = total_frames s e fph
      ∧ (animation_timestamps fs fph).getD 0 0 = s
      ∧ (2 ≤ total_frames s e fph →
          (animation_timestamps fs fph).getD (total_frames s e fph - 1) 0 = e
          ∧ ∀ i < total_frames s e fph,
              (animation_timestamps fs fph).getD i 0
                = s + (e - s) * i / ((total_frames s e fph : ℚ) - 1))
      ∧ (total_frames s e fph = 1 → animation_timestamps fs fph = [s])
      ∧ (s = e → animation_timestamps fs fph = [s]))
    ∧ total_frames 25200 32700 30 = 62 := by
  have hts := animation_timestamps_eq fs fph s e hs he
  refine ⟨⟨total_frames_cast s e fph, hts, ?_, ?_, ?_, ?_, ?_⟩, by decide⟩
  · rw [hts, date_range_length]
  · rw [hts, date_range_getD_zero s e _ (one_le_total_frames s e fph)]
  · intro h2
    exact ⟨by rw [hts, date_range_getD_last s e _ h2],
      fun i hi => by rw [hts, date_range_getD s e _ h2 i hi]⟩
  · intro h1
    rw [hts, h1, date_range_one]
  · intro hse
    have h1 : total_frames s e fph = 1 := by
      have hcast := total_frames_cast s e fph
      have : total_hours s e * fph = 0 := by
        rw [total_hours, hse]
        ring
      rw [this] at hcast
      simp at hcast
      omega
    rw [hts, h1, date_range_one]

/-- C1 witness: the amended theorem applied to the template flight. -/
theorem timeline_generation_C1_witness :
    min_departure [exampleFlight] = some 25200
    ∧ (total_frames 25200 32700 30 : ℤ) = max ⌊total_hours 25200 32700 * 30⌋ 1 :=
  ⟨by decide,
   (timeline_generation_C1 [exampleFlight] 30 25200 32700 (by decide) (by decide)).1.1⟩

/-- C1 counterexample: a single flight departing at 0 s and arriving at
60 s with 30 frames per hour has frame count 1, and the timeline is
`[0]`: the end 60 is not present even though start and end differ,
contradicting the claim that both endpoints are always present when
`start != end`. -/
theorem timeline_generation_C1_counterexample :
    min_departure [shortFlight] = some 0
    ∧ max_arrival [shortFlight] = some 60
    ∧ (0 : ℚ) ≠ 60
    ∧ animation_timestamps [shortFlight] 30 = [0]
    ∧ ¬ ((60 : ℚ) ∈ animation_timestamps [shortFlight] 30) := by decide

lemma is_active_iff (f : Flight) (t : ℚ) :
    is_active f t = true ↔ (f.departure_time ≤ t ∧ t ≤ f.arrival_time) := by
  simp [is_active]

lemma densified_cons (fs : List Flight) (t : ℚ) (ts : List ℚ) :
    densified_data fs (t :: ts)
      = (fs.filter (fun f => is_active f t)).map (fun f => mk_frame_point f t)
        ++ densified_data fs ts := by
  simp [densified_data]

lemma countP_id_q (fs : List Flight) (f : Flight) (q : Flight → Bool) (hf : f ∈ fs)
    (hu : (fs.map Flight.flight_id).Nodup) :
    fs.countP (fun g => (g.flight_id == f.flight_id) && q g) = if q f then 1 else 0 := by
  induction fs with
  | nil => cases hf
  | cons g rest ih =>
    rw [List.map_cons, List.nodup_cons] at hu
    rcases List.mem_cons.1 hf with rfl | hfr
    · have hrest : rest.countP (fun g => (g.flight_id == f.flight_id) && q g) = 0 := by
        rw [List.countP_eq_zero]
        intro g hg
        simp only [Bool.and_eq_true, beq_iff_eq, not_and]
        intro hcon
        exact absurd (hcon ▸ List.mem_map_of_mem Flight.flight_id hg) hu.1
      rw [List.countP_cons, hrest]
      simp
    · have hne : (g.flight_id == f.flight_id) = false := by
        simp only [beq_eq_false_iff_ne, ne_eq]
        intro hcon
        exact hu.1 (hcon ▸ List.mem_map_of_mem Flight.flight_id hfr)
      rw [List.countP_cons, ih hfr hu.2]
      simp [hne]

lemma countP_densified (fs : List Flight) (ts : List ℚ) (f : Flight)
    (hf : f ∈ fs) (hu : (fs.map Flight.flight_id).Nodup) (r : ℚ → Bool) :
    (densified_data fs ts).countP (fun p => (p.flight_id == f.flight_id) && r p.frame)
      = ts.countP (fun t => is_active f t && r t) := by
  induction ts with
  | nil => rfl
  | cons t ts ih =>
    rw [densified_cons, List.countP_append, ih, List.countP_cons]
    have hinner : ((fs.filter (fun g => is_active g t)).map (fun g => mk_frame_point g t)).countP
        (fun p => (p.flight_id == f.flight_id) && r p.frame)
        = if is_active f t && r t then 1 else 0 := by
      rw [List.countP_map, List.countP_filter]
      have hfun : (fun g => ((fun p : FramePoint => (p.flight_id == f.flight_id) && r p.frame) ∘
            (fun g => mk_frame_point g t)) g && is_active g t)
          = fun g => (g.flight_id == f.flight_id) && (r t && is_active g t) := by
        funext g
        simp [mk_frame_point, Bool.and_assoc]
      rw [hfun, countP_id_q fs f _ hf hu]
      by_cases h1 : is_active f t <;> by_cases h2 : r t <;> simp [h1, h2]
    rw [hinner]
    omega

lemma countP_densified_id (fs : List Flight) (ts : List ℚ) (f : Flight)
    (hf : f ∈ fs) (hu : (fs.map Flight.flight_id).Nodup) :
    (densified_data fs ts).countP (fun p => p.flight_id == f.flight_id)
      = ts.countP (fun t => is_active f t) := by
  have h := countP_densified fs ts f hf hu (fun _ => true)
  simpa using h

lemma lt_of_two_le_total_frames (s e : ℚ) (fph : ℕ) (h2 : 2 ≤ total_frames s e fph) :
    s < e := by
  have hc := total_frames_cast s e fph
  have hfl : (2 : ℤ) ≤ ⌊total_hours s e * fph⌋ := by omega
  have hq : (2 : ℚ) ≤ total_hours s e * fph := by
    have := Int.le_floor.1 hfl
    exact_mod_cast this
  by_contra hcon
  push_neg at hcon
  have hth : total_hours s e ≤ 0 := by
    rw [total_hours]
    apply div_nonpos_of_nonpos_of_nonneg
    · linarith
    · norm_num
  have hmul : total_hours s e * fph ≤ 0 := by
    have hfn : (0 : ℚ) ≤ fph := Nat.cast_nonneg fph
    nlinarith
  linarith

lemma date_range_nodup (s e : ℚ) (n : ℕ) (hse : 2 ≤ n → s ≠ e) :
    (date_range s e n).Nodup := by
  unfold date_range
  split
  · simp
  · split
    · simp
    · next h0 h1 =>
      have h2 : 2 ≤ n := by omega
      have hne : e - s ≠ 0 := sub_ne_zero.2 (Ne.symm (hse h2))
      have hd : ((n : ℚ) - 1) ≠ 0 := by
        have : (2 : ℚ) ≤ (n : ℚ) := by exact_mod_cast h2
        linarith
      apply List.Nodup.map ?_ (List.nodup_range n)
      intro a b hab
      simp only at hab
      field_simp at hab
      rcases hab with h | h
      · exact h
      · exact absurd h hne

lemma timeline_nodup (fs : List Flight) (fph : ℕ) :
    (animation_timestamps fs fph).Nodup := by
  unfold animation_timestamps
  rcases hmin : min_departure fs with _ | s
  · simp
  · rcases hmax : max_arrival fs with _ | e
    · simp
    · apply date_range_nodup
      intro h2
      exact (lt_of_two_le_total_frames s e fph h2).ne

lemma countP_and_eq (ts : List ℚ) (t : ℚ) (q : ℚ → Bool) (hts : ts.Nodup) (hmem : t ∈ ts) :
    ts.countP (fun u => q u && (u == t)) = if q t then 1 else 0 := by
  induction ts with
  | nil => cases hmem
  | cons u ts ih =>
    rw [List.nodup_cons] at hts
    rw [List.countP_cons]
    rcases List.mem_cons.1 hmem with rfl | hmem2
    · have hzero : ts.countP (fun v => q v && (v == t)) = 0 := by
        rw [List.countP_eq_zero]
        intro v hv
        simp only [Bool.and_eq_true, beq_iff_eq, not_and]
        intro _ hcon
        exact hts.1 (hcon ▸ hv)
      rw [hzero]
      simp
    · have hne : (u == t) = false := by
        simp only [beq_eq_false_iff_ne, ne_eq]
        intro hcon
        exact hts.1 (hcon ▸ hmem2)
      rw [ih hts.2 hmem2]
      simp [hne]

/-- C2: with unique flight ids, every timeline timestamp yields exactly
one frame point for a flight iff the timestamp lies in the flight's
closed `[departure, arrival]` interval, and the total number of frame
points for a flight equals the number of timeline timestamps in that
interval. -/
theorem active_interval_C2 (fs : List Flight) (fph : ℕ) (f : Flight)
    (hf : f ∈ fs) (hu : (fs.map Flight.flight_id).Nodup) :
    (∀ t ∈ animation_timestamps fs fph,
      (densified_data fs (animation_timestamps fs fph)).countP
          (fun p => (p.flight_id == f.flight_id) && (p.frame == t))
        = if f.departure_time ≤ t ∧ t ≤ f.arrival_time then 1 else 0)
    ∧ (densified_data fs (animation_timestamps fs fph)).countP
          (fun p => p.flight_id == f.flight_id)
        = (animation_timestamps fs fph).countP
            (fun t => decide (f.departure_time ≤ t ∧ t ≤ f.arrival_time)) := by
  constructor
  · intro t hmem
    rw [countP_densified fs _ f hf hu (fun u => u == t)]
    rw [countP_and_eq _ t _ (timeline_nodup fs fph) hmem]
    by_cases hact : f.departure_time ≤ t ∧ t ≤ f.arrival_time
    · rw [if_pos hact, if_pos ((is_active_iff f t).2 hact)]
    · rw [if_neg hact, if_neg (fun hcon => hact ((is_active_iff f t).1 hcon))]
  · rw [countP_densified_id fs _ f hf hu]
    apply List.countP_congr
    intro t _
    simp [is_active]

/-- C2 witness: the theorem applied to the template flight alone. -/
theorem active_interval_C2_witness :
    exampleFlight ∈ [exampleFlight]
    ∧ (densified_data [exampleFlight] (animation_timestamps [exampleFlight] 30)).countP
          (fun p => p.flight_id == exampleFlight.flight_id)
        = (animation_timestamps [exampleFlight] 30).countP
            (fun t => decide (exampleFlight.departure_time ≤ t ∧ t ≤ exampleFlight.arrival_time)) :=
  ⟨by decide,
   (active_interval_C2 [exampleFlight] 30 exampleFlight (by decide) (by decide)).2⟩

/-- C3: for a flight active at `t` with positive duration, the progress
ratio is the elapsed fraction and lies in `[0, 1]`, the position is the
straight-line interpolation between origin and destination, and the
endpoints are hit exactly: origin at departure, destination at arrival. -/
theorem interpolation_C3 (f : Flight) (t : ℚ)
    (hact : f.departure_time ≤ t ∧ t ≤ f.arrival_time)
    (hdur : 0 < flight_duration f) :
    (progress_ratio f t = (t - f.departure_time) / flight_duration f
      ∧ 0 ≤ progress_ratio f t ∧ progress_ratio f t ≤ 1
      ∧ current_lat f t
          = f.origin_lat + (f.dest_lat - f.origin_lat)
              * ((t - f.departure_time) / flight_duration f)
      ∧ current_lon f t
          = f.origin_lon + (f.dest_lon - f.origin_lon)
              * ((t - f.departure_time) / flight_duration f))
    ∧ current_lat f f.departure_time = f.origin_lat
    ∧ current_lon f f.departure_time = f.origin_lon
    ∧ current_lat f f.arrival_time = f.dest_lat
    ∧ current_lon f f.arrival_time = f.dest_lon := by
  have hratio : progress_ratio f t = (t - f.departure_time) / flight_duration f := by
    rw [progress_ratio, if_pos hdur]
  have hr0 : progress_ratio f f.departure_time = 0 := by
    rw [progress_ratio, if_pos hdur, sub_self, zero_div]
  have hr1 : progress_ratio f f.arrival_time = 1 := by
    rw [progress_ratio, if_pos hdur, flight_duration, div_self]
    rw [flight_duration] at hdur
    exact hdur.ne.symm
  refine ⟨⟨hratio, ?_, ?_, by rw [current_lat, hratio], by rw [current_lon, hratio]⟩,
    ?_, ?_, ?_, ?_⟩
  · rw [hratio]
    apply div_nonneg _ hdur.le
    linarith [hact.1]
  · rw [hratio]
    rw [div_le_one hdur, flight_duration]
    linarith [hact.2]
  · rw [current_lat, hr0]
    ring
  · rw [current_lon, hr0]
    ring
  · rw [current_lat, hr1]
    ring
  · rw [current_lon, hr1]
    ring

/-- C3 witness: the theorem applied to the template flight at its
departure instant. -/
theorem interpolation_C3_witness :
    (exampleFlight.departure_time ≤ 25200 ∧ (25200 : ℚ) ≤ exampleFlight.arrival_time)
    ∧ 0 < flight_duration exampleFlight
    ∧ current_lat exampleFlight exampleFlight.departure_time = exampleFlight.origin_lat :=
  ⟨by decide, by decide,
   (interpolation_C3 exampleFlight 25200 (by decide) (by decide)).2.1⟩

/-- Concrete two-minute flight used to pin down sampling behavior. -/
def longFlight : Flight :=
  ⟨"L1", "AAA", 0, 0, "BBB", 1, 1, 0, 120⟩

/-- Concrete zero-duration flight at 60 s, an instant strictly between
sample timestamps of the window of `longFlight`. -/
def zeroFlight : Flight :=
  ⟨"Z1", "CCC", 2, 2, "DDD", 3, 3, 60, 60⟩

lemma is_active_zero_duration (f : Flight) (hzero : f.arrival_time = f.departure_time)
    (u : ℚ) : is_active f u = (u == f.departure_time) := by
  by_cases h : u = f.departure_time
  · subst h
    simp [is_active, hzero]
  · have h2 : is_active f u = false := by
      rw [← Bool.not_eq_true, is_active_iff, hzero]
      intro hc
      exact h (le_antisymm hc.2 hc.1)
    rw [h2]
    exact (beq_eq_false_iff_ne.2 h).symm

/-- C8 (amended): a zero-duration flight has duration 0, its progress
ratio is 0 at every instant by the explicit guard (no division is
performed), its emitted position always equals the origin, and the
number of frame points it produces equals 1 if its instant is one of
the sampled timeline timestamps and 0 otherwise — exactly one only
when the instant is sampled. -/
theorem zero_duration_C8 (fs : List Flight) (fph : ℕ) (f : Flight)
    (hf : f ∈ fs) (hu : (fs.map Flight.flight_id).Nodup)
    (hzero : f.arrival_time = f.departure_time) :
    flight_duration f = 0
    ∧ (∀ t : ℚ, progress_ratio f t = 0)
    ∧ (∀ t : ℚ, current_lat f t = f.origin_lat ∧ current_lon f t = f.origin_lon)
    ∧ (densified_data fs (animation_timestamps fs fph)).countP
          (fun p => p.flight_id == f.flight_id)
        = (if f.departure_time ∈ animation_timestamps fs fph then 1 else 0)
    ∧ (f.departure_time ∈ animation_timestamps fs fph →
        (densified_data fs (animation_timestamps fs fph)).countP
            (fun p => p.flight_id == f.flight_id) = 1) := by
  have hd : flight_duration f = 0 := by rw [flight_duration, hzero, sub_self]
  have hr : ∀ t : ℚ, progress_ratio f t = 0 := by
    intro t
    rw [progress_ratio, hd]
    norm_num
  have hcount : (densified_data fs (animation_timestamps fs fph)).countP
      (fun p => p.flight_id == f.flight_id)
      = (if f.departure_time ∈ animation_timestamps fs fph then 1 else 0) := by
    rw [countP_densified_id fs _ f hf hu]
    rw [List.countP_congr (fun u _ => by rw [is_active_zero_duration f hzero u])]
    rw [← List.count_eq_countP]
    by_cases hmem : f.departure_time ∈ animation_timestamps fs fph
    · rw [if_pos hmem, List.count_eq_one_of_mem (timeline_nodup fs fph) hmem]
    · rw [if_neg hmem, List.count_eq_zero_of_not_mem hmem]
  refine ⟨hd, hr, ?_, hcount, ?_⟩
  · intro t
    constructor
    · rw [current_lat, hr t]
      ring
    · rw [current_lon, hr t]
      ring
  · intro hmem
    rw [hcount, if_pos hmem]

/-- C8 witness: a lone zero-duration flight is sampled at its own
instant and yields exactly one frame point. -/
theorem zero_duration_C8_witness :
    zeroFlight ∈ [zeroFlight]
    ∧ zeroFlight.arrival_time = zeroFlight.departure_time
    ∧ flight_duration zeroFlight = 0 :=
  ⟨by decide, by decide,
   (zero_duration_C8 [zeroFlight] 30 zeroFlight (by decide) (by decide) (by decide)).1⟩

/-- C8 counterexample: alongside a two-minute flight, the window is
shorter than one frame period, so the timeline is the single timestamp
0; the zero-duration flight at 60 s is never sampled and produces zero
frame points, not exactly one. -/
theorem zero_duration_C8_counterexample :
    zeroFlight.departure_time = zeroFlight.arrival_time
    ∧ zeroFlight ∈ [longFlight, zeroFlight]
    ∧ animation_timestamps [longFlight, zeroFlight] 30 = [0]
    ∧ (densified_data [longFlight, zeroFlight]
          (animation_timestamps [longFlight, zeroFlight] 30)).countP
        (fun p => p.flight_id == zeroFlight.flight_id) = 0 := by decide

lemma foldl_min_attained (a : ℚ) (l : List ℚ) :
    l.foldl min a = a ∨ (l.foldl min a) ∈ l := by
  induction l generalizing a with
  | nil => exact Or.inl rfl
  | cons b l ih =>
    rw [List.foldl_cons]
    rcases ih (min a b) with h | h
    · rcases min_choice a b with hc | hc
      · exact Or.inl (by rw [h, hc])
      · exact Or.inr (by rw [h, hc]; exact List.mem_cons_self b l)
    · exact Or.inr (List.mem_cons_of_mem b h)

lemma min_departure_attained (fs : List Flight) (s : ℚ)
    (hs : min_departure fs = some s) : ∃ f ∈ fs, f.departure_time = s := by
  cases fs with
  | nil => cases hs
  | cons f rest =>
    have hs2 : (rest.map Flight.departure_time).foldl min f.departure_time = s := by
      have := hs
      rw [min_departure] at this
      exact Option.some.inj this
    rcases foldl_min_attained f.departure_time (rest.map Flight.departure_time) with h | h
    · exact ⟨f, List.mem_cons_self f rest, by rw [← hs2, h]⟩
    · rw [hs2] at h
      rcases List.mem_map.1 h with ⟨g, hg, hgd⟩
      exact ⟨g, List.mem_cons_of_mem f hg, hgd⟩

lemma timeline_head_mem (fs : List Flight) (fph : ℕ) (s e : ℚ)
    (hs : min_departure fs = some s) (he : max_arrival fs = some e) :
    s ∈ animation_timestamps fs fph := by
  have hts := animation_timestamps_eq fs fph s e hs he
  have hlen : (animation_timestamps fs fph).length = total_frames s e fph := by
    rw [hts, date_range_length]
  have hpos : 0 < (animation_timestamps fs fph).length := by
    rw [hlen]
    exact one_le_total_frames s e fph
  have hget : (animation_timestamps fs fph).getD 0 0 = s := by
    rw [hts]
    exact date_range_getD_zero s e _ (one_le_total_frames s e fph)
  rw [List.getD_eq_getElem _ _ hpos] at hget
  rw [← hget]
  exact List.getElem_mem hpos

lemma update_graph_eq_graph (f0 : Flight) (rest : List Flight) (fph : ℕ)
    (hempty : (densified_data (f0 :: rest)
      (animation_timestamps (f0 :: rest) fph)).isEmpty = false) :
    update_graph (f0 :: rest) fph
      = GraphResult.graph
          (build_frames (densified_data (f0 :: rest) (animation_timestamps (f0 :: rest) fph)))
          (slider_labels (animation_timestamps (f0 :: rest) fph)
            (build_frames (densified_data (f0 :: rest)
              (animation_timestamps (f0 :: rest) fph))).length) := by
  show (if (densified_data (f0 :: rest) (animation_timestamps (f0 :: rest) fph)).isEmpty
      then GraphResult.noFlightsFound
      else GraphResult.graph
        (build_frames (densified_data (f0 :: rest) (animation_timestamps (f0 :: rest) fph)))
        (slider_labels (animation_timestamps (f0 :: rest) fph)
          (build_frames (densified_data (f0 :: rest)
            (animation_timestamps (f0 :: rest) fph))).length)) = _
  rw [hempty]
  rfl

/-- C10: for a non-empty flight collection in which every flight has
`arrival_time >= departure_time`, the densified output is non-empty —
the flight attaining the minimum departure is active at the first
timeline timestamp, which equals that minimum — so the callback
produces a figure and the "No flights found" branch is unreachable. -/
theorem nonempty_output_C10 (fs : List Flight) (fph : ℕ)
    (hne : fs ≠ [])
    (hwf : ∀ f ∈ fs, f.departure_time ≤ f.arrival_time) :
    densified_data fs (animation_timestamps fs fph) ≠ []
    ∧ is_graph (update_graph fs fph) = true
    ∧ update_graph fs fph ≠ GraphResult.noFlightsFound
    ∧ ∃ s, min_departure fs = some s
        ∧ (animation_timestamps fs fph).getD 0 0 = s
        ∧ ∃ f ∈ fs, f.departure_time = s ∧ is_active f s = true := by
  obtain ⟨f0, rest, rfl⟩ : ∃ f0 rest, fs = f0 :: rest := by
    cases fs with
    | nil => exact absurd rfl hne
    | cons a l => exact ⟨a, l, rfl⟩
  have hs : min_departure (f0 :: rest)
      = some ((rest.map Flight.departure_time).foldl min f0.departure_time) := rfl
  have he : max_arrival (f0 :: rest)
      = some ((rest.map Flight.arrival_time).foldl max f0.arrival_time) := rfl
  obtain ⟨g, hg, hgd⟩ := min_departure_attained _ _ hs
  have hact : is_active g ((rest.map Flight.departure_time).foldl min f0.departure_time)
      = true := by
    rw [is_active_iff]
    exact ⟨le_of_eq hgd, by rw [← hgd]; exact hwf g hg⟩
  have hmem_s : ((rest.map Flight.departure_time).foldl min f0.departure_time)
      ∈ animation_timestamps (f0 :: rest) fph :=
    timeline_head_mem _ fph _ _ hs he
  have hmemp : mk_frame_point g ((rest.map Flight.departure_time).foldl min f0.departure_time)
      ∈ densified_data (f0 :: rest) (animation_timestamps (f0 :: rest) fph) := by
    rw [densified_data, List.mem_flatMap]
    exact ⟨_, hmem_s, List.mem_map_of_mem _ (List.mem_filter.2 ⟨hg, hact⟩)⟩
  have hdne : densified_data (f0 :: rest) (animation_timestamps (f0 :: rest) fph) ≠ [] :=
    List.ne_nil_of_mem hmemp
  have hts : animation_timestamps (f0 :: rest) fph
      = date_range ((rest.map Flight.departure_time).foldl min f0.departure_time)
          ((rest.map Flight.arrival_time).foldl max f0.arrival_time)
          (total_frames ((rest.map Flight.departure_time).foldl min f0.departure_time)
            ((rest.map Flight.arrival_time).foldl max f0.arrival_time) fph) := rfl
  have hempty : (densified_data (f0 :: rest)
      (animation_timestamps (f0 :: rest) fph)).isEmpty = false := by
    rcases h : (densified_data (f0 :: rest) (animation_timestamps (f0 :: rest) fph)).isEmpty
    · rfl
    · exact absurd (List.isEmpty_iff.1 h) hdne
  have hgr := update_graph_eq_graph f0 rest fph hempty
  refine ⟨hdne, by rw [hgr]; rfl, ?_, ?_⟩
  · rw [hgr]
    intro h
    cases h
  · refine ⟨_, hs, ?_, g, hg, hgd, hact⟩
    rw [hts]
    exact date_range_getD_zero _ _ _ (one_le_total_frames _ _ fph)

/-- C10 witness: the theorem applied to the template flight. -/
theorem nonempty_output_C10_witness :
    [exampleFlight] ≠ ([] : List Flight)
    ∧ densified_data [exampleFlight] (animation_timestamps [exampleFlight] 30) ≠ [] :=
  ⟨by decide,
   (nonempty_output_C10 [exampleFlight] 30 (by decide) (by decide)).1⟩

/-- C5 (amended): on an empty flight collection the callback fails
before producing any timeline or frames, but through the generic
exception path (`int(nan)` raising `ValueError`, caught by the blanket
handler), not through a dedicated `EmptyDataset` error kind — the
source defines no such error taxonomy. -/
theorem empty_dataset_C5 (fph : ℕ) :
    update_graph [] fph
      = GraphResult.errorMessage "cannot convert float NaN to integer"
    ∧ animation_timestamps [] fph = []
    ∧ is_graph (update_graph [] fph) = false := ⟨rfl, rfl, rfl⟩

/-- C5 counterexample: at the concrete empty input the result is the
generic exception message — the same constructor used for any parsing
failure — not a distinguished `EmptyDataset` error value (none exists
in the code), refuting the claim that a specific error kind is
reported. -/
theorem empty_dataset_C5_counterexample :
    update_graph [] 30
      = GraphResult.errorMessage "cannot convert float NaN to integer"
    ∧ update_graph [] 30 ≠ GraphResult.noFlightsFound
    ∧ is_graph (update_graph [] 30) = false := by decide

/-- Flight spanning a window of `B + 1` hours, used to exhibit
unbounded output size. -/
def span_flight (B : ℕ) : Flight :=
  ⟨"F1", "AAA", 0, 0, "BBB", 0, 0, 0, ((3600 * (B + 1) : ℕ) : ℚ)⟩

lemma py_int_natCast (m : ℕ) : py_int (m : ℚ) = m := by
  rw [py_int, Rat.num_natCast, Rat.den_natCast, Nat.cast_one, Int.tdiv_one]

lemma date_range_mem_bounds (s e : ℚ) (n : ℕ) (hse : s ≤ e) (t : ℚ)
    (ht : t ∈ date_range s e n) : s ≤ t ∧ t ≤ e := by
  unfold date_range at ht
  split at ht
  · cases ht
  · split at ht
    · rcases List.mem_singleton.1 ht with rfl
      exact ⟨le_refl _, hse⟩
    · next h0 h1 =>
      rcases List.mem_map.1 ht with ⟨i, hi, rfl⟩
      have hin : i < n := List.mem_range.1 hi
      have hn2 : 2 ≤ n := by omega
      have hd : (0 : ℚ) < (n : ℚ) - 1 := by
        have : (2 : ℚ) ≤ (n : ℚ) := by exact_mod_cast hn2
        linarith
      constructor
      · have : 0 ≤ (e - s) * (i : ℚ) / ((n : ℚ) - 1) :=
          div_nonneg (mul_nonneg (by linarith) (Nat.cast_nonneg i)) hd.le
        linarith
      · have hi1 : (i : ℚ) ≤ (n : ℚ) - 1 := by
          have : ((i : ℚ) + 1) ≤ (n : ℚ) := by exact_mod_cast hin
          linarith
        have hfrac : (e - s) * (i : ℚ) / ((n : ℚ) - 1) ≤ e - s := by
          rw [div_le_iff₀ hd]
          have h1 : (e - s) * (i : ℚ) ≤ (e - s) * ((n : ℚ) - 1) :=
            mul_le_mul_of_nonneg_left hi1 (by linarith)
          linarith
        linarith

lemma densified_single_length (f : Flight) (ts : List ℚ)
    (hall : ∀ t ∈ ts, is_active f t = true) :
    (densified_data [f] ts).length = ts.length := by
  induction ts with
  | nil => rfl
  | cons t ts ih =>
    rw [densified_cons, List.length_append,
      ih (fun u hu => hall u (List.mem_cons_of_mem t hu))]
    have ht : is_active f t = true := hall t (List.mem_cons_self t ts)
    simp [ht]
    omega

lemma span_total_frames (B : ℕ) :
    total_frames 0 ((3600 * (B + 1) : ℕ) : ℚ) 30 = 30 * (B + 1) := by
  have harg : total_hours 0 ((3600 * (B + 1) : ℕ) : ℚ) * (30 : ℕ)
      = ((30 * (B + 1) : ℕ) : ℚ) := by
    rw [total_hours]
    push_cast
    ring
  rw [total_frames, harg, py_int_natCast]
  have h1 : (1 : ℤ) ≤ ((30 * (B + 1) : ℕ) : ℤ) := by
    have : 1 ≤ 30 * (B + 1) := by omega
    exact_mod_cast this
  rw [max_eq_left h1]
  exact Int.toNat_natCast _

lemma span_flight_facts (B : ℕ) :
    is_graph (update_graph [span_flight B] 30) = true
    ∧ total_frame_points [span_flight B] 30 = 30 * (B + 1) := by
  have hts : animation_timestamps [span_flight B] 30
      = date_range 0 ((3600 * (B + 1) : ℕ) : ℚ) (total_frames 0 ((3600 * (B + 1) : ℕ) : ℚ) 30) :=
    rfl
  have hall : ∀ t ∈ animation_timestamps [span_flight B] 30,
      is_active (span_flight B) t = true := by
    intro t ht
    rw [hts] at ht
    have hb := date_range_mem_bounds 0 _ _ (Nat.cast_nonneg _) t ht
    rw [is_active_iff]
    exact hb
  have hlen : (densified_data [span_flight B]
      (animation_timestamps [span_flight B] 30)).length = 30 * (B + 1) := by
    rw [densified_single_length (span_flight B) _ hall, hts, date_range_length,
      span_total_frames]
  have hne : densified_data [span_flight B] (animation_timestamps [span_flight B] 30) ≠ [] := by
    intro h
    rw [h] at hlen
    simp at hlen
  have hempty : (densified_data [span_flight B]
      (animation_timestamps [span_flight B] 30)).isEmpty = false := by
    rcases h : (densified_data [span_flight B] (animation_timestamps [span_flight B] 30)).isEmpty
    · rfl
    · exact absurd (List.isEmpty_iff.1 h) hne
  constructor
  · rw [update_graph_eq_graph (span_flight B) [] 30 hempty]
    rfl
  · rw [total_frame_points, hlen]

/-- C9 (amended): the engine enforces no resource limit at all - for
every candidate bound `B` there is an input on which the callback
succeeds (producing a figure, never a resource-limit failure) while
emitting more than `B` frame points. -/
theorem resource_bound_C9 :
    ∀ B : ℕ, ∃ (fs : List Flight) (fph : ℕ),
      is_graph (update_graph fs fph) = true ∧ B < total_frame_points fs fph := by
  intro B
  refine ⟨[span_flight B], 30, (span_flight_facts B).1, ?_⟩
  rw [(span_flight_facts B).2]
  omega

/-- C9 counterexample: no global bound on the number of produced frame
points exists for successful runs, refuting the claim that the engine
enforces a hard upper limit and fails once it is exceeded. -/
theorem resource_bound_C9_counterexample :
    ¬ ∃ B : ℕ, ∀ (fs : List Flight) (fph : ℕ),
        is_graph (update_graph fs fph) = true → total_frame_points fs fph ≤ B := by
  rintro ⟨B, hB⟩
  have h := span_flight_facts B
  have hle := hB _ _ h.1
  rw [h.2] at hle
  omega

lemma mem_dedup_from {α : Type} [DecidableEq α] (l : List α) (seen : List α) (x : α) :
    x ∈ dedup_from seen l ↔ x ∈ l ∧ x ∉ seen := by
  induction l generalizing seen with
  | nil => simp [dedup_from]
  | cons y ys ih =>
    rw [dedup_from]
    by_cases hy : y ∈ seen
    · rw [if_pos hy, ih]
      constructor
      · exact fun h => ⟨List.mem_cons_of_mem y h.1, h.2⟩
      · rintro ⟨h1, h2⟩
        rcases List.mem_cons.1 h1 with rfl | h3
        · exact absurd hy h2
        · exact ⟨h3, h2⟩
    · rw [if_neg hy]
      constructor
      · intro h
        rcases List.mem_cons.1 h with rfl | h2
        · exact ⟨List.mem_cons_self x ys, hy⟩
        · rcases (ih (y :: seen)).1 h2 with ⟨h3, h4⟩
          exact ⟨List.mem_cons_of_mem y h3,
            fun hc => h4 (List.mem_cons_of_mem y hc)⟩
      · rintro ⟨h1, h2⟩
        rcases List.mem_cons.1 h1 with rfl | h3
        · exact List.mem_cons_self x _
        · by_cases hxy : x = y
          · subst hxy
            exact List.mem_cons_self x _
          · exact List.mem_cons_of_mem y ((ih (y :: seen)).2
              ⟨h3, fun hc => by
                rcases List.mem_cons.1 hc with h5 | h5
                · exact hxy h5
                · exact h2 h5⟩)

lemma mem_all_airports_of_origin (fs : List Flight) (f : Flight) (hf : f ∈ fs) :
    f.origin_code ∈ all_airports fs := by
  rw [all_airports, dedup_first, mem_dedup_from]
  exact ⟨List.mem_append_left _ (List.mem_map_of_mem Flight.origin_code hf), by simp⟩

lemma dedup_by_code_subset (seen : List String) (l : List AirportLoc) (a : AirportLoc)
    (ha : a ∈ dedup_by_code seen l) : a ∈ l := by
  induction l generalizing seen with
  | nil => cases ha
  | cons b l ih =>
    rw [dedup_by_code] at ha
    by_cases hb : b.code ∈ seen
    · rw [if_pos hb] at ha
      exact List.mem_cons_of_mem b (ih seen ha)
    · rw [if_neg hb] at ha
      rcases List.mem_cons.1 ha with rfl | h2
      · exact List.mem_cons_self a l
      · exact List.mem_cons_of_mem b (ih _ h2)

lemma airport_location_code_mem (fs : List Flight) (a : AirportLoc)
    (ha : a ∈ all_airport_locations fs) : a.code ∈ all_airports fs := by
  have hmem := dedup_by_code_subset [] _ a ha
  rw [all_airports, dedup_first, mem_dedup_from]
  refine ⟨?_, by simp⟩
  rcases List.mem_append.1 hmem with h | h
  · rcases List.mem_map.1 h with ⟨f, hf, rfl⟩
    exact List.mem_append_left _ (List.mem_map_of_mem Flight.origin_code hf)
  · rcases List.mem_map.1 h with ⟨f, hf, rfl⟩
    exact List.mem_append_right _ (List.mem_map_of_mem Flight.destination_code hf)

lemma airport_colors_some (fs : List Flight) (code : String)
    (hmem : code ∈ all_airports fs) :
    ∃ i, (all_airports fs).findIdx? (fun c => c == code) = some i
      ∧ airport_colors fs code
          = some (bright_colors.getD (i % bright_colors.length) "") := by
  rcases hfind : (all_airports fs).findIdx? (fun c => c == code) with _ | i
  · rw [List.findIdx?_eq_none_iff] at hfind
    have := hfind code hmem
    simp at this
  · exact ⟨i, rfl, by rw [airport_colors, hfind]; rfl⟩

/-- C7: every airport code occurring in the input gets a palette color
by its first-appearance enumeration index modulo the palette size
(total, so wraparound never fails); the same code always maps to the
same color; the static marker layer colors every deduplicated airport
row with exactly that color, and every frame point of a flight uses
the color assigned to its origin code. -/
theorem color_assignment_C7 (fs : List Flight) (f : Flight) (hf : f ∈ fs) :
    ∃ i c, (all_airports fs).findIdx? (fun a => a == f.origin_code) = some i
      ∧ c = bright_colors.getD (i % bright_colors.length) ""
      ∧ airport_colors fs f.origin_code = some c
      ∧ (∀ loc ∈ all_airport_locations fs, loc.code = f.origin_code →
          airport_colors fs loc.code = some c)
      ∧ (∀ ts : List ℚ, ∀ p ∈ densified_data fs ts, p.origin_code = f.origin_code →
          point_color fs p = some c)
      ∧ airport_marker_colors fs
          = (all_airport_locations fs).map (fun a => airport_colors fs a.code)
      ∧ (∀ loc ∈ all_airport_locations fs,
          ∃ cl, airport_colors fs loc.code = some cl) := by
  obtain ⟨i, hfind, hcolor⟩ :=
    airport_colors_some fs f.origin_code (mem_all_airports_of_origin fs f hf)
  refine ⟨i, bright_colors.getD (i % bright_colors.length) "", hfind, rfl, hcolor,
    ?_, ?_, rfl, ?_⟩
  · intro loc _ hloc
    rw [hloc]
    exact hcolor
  · intro ts p _ hp
    rw [point_color, hp]
    exact hcolor
  · intro loc hloc
    obtain ⟨j, _, hc⟩ :=
      airport_colors_some fs loc.code (airport_location_code_mem fs loc hloc)
    exact ⟨_, hc⟩

/-- C7 witness: the theorem applied to the template flight, whose
origin DEL is the first enumerated airport. -/
theorem color_assignment_C7_witness :
    exampleFlight ∈ [exampleFlight]
    ∧ ∃ i c, (all_airports [exampleFlight]).findIdx?
          (fun a => a == exampleFlight.origin_code) = some i
        ∧ c = bright_colors.getD (i % bright_colors.length) ""
        ∧ airport_colors [exampleFlight] exampleFlight.origin_code = some c
        ∧ (∀ loc ∈ all_airport_locations [exampleFlight],
            loc.code = exampleFlight.origin_code →
              airport_colors [exampleFlight] loc.code = some c)
        ∧ (∀ ts : List ℚ, ∀ p ∈ densified_data [exampleFlight] ts,
            p.origin_code = exampleFlight.origin_code →
              point_color [exampleFlight] p = some c)
        ∧ airport_marker_colors [exampleFlight]
            = (all_airport_locations [exampleFlight]).map
                (fun a => airport_colors [exampleFlight] a.code)
        ∧ (∀ loc ∈ all_airport_locations [exampleFlight],
            ∃ cl, airport_colors [exampleFlight] loc.code = some cl) :=
  ⟨by decide, color_assignment_C7 [exampleFlight] exampleFlight (by decide)⟩

/-- Concrete instantaneous flight at 0 s. -/
def instantA : Flight :=
  ⟨"A1", "AAA", 0, 0, "BBB", 1, 1, 0, 0⟩

/-- Concrete instantaneous flight at 7200 s. -/
def instantB : Flight :=
  ⟨"B1", "CCC", 2, 2, "DDD", 3, 3, 7200, 7200⟩

lemma dedup_from_replicate_mem (seen : List ℚ) (t : ℚ) (k : ℕ) (rest : List ℚ)
    (ht : t ∈ seen) :
    dedup_from seen (List.replicate k t ++ rest) = dedup_from seen rest := by
  induction k with
  | zero => rfl
  | succ k ih =>
    rw [List.replicate_succ, List.cons_append, dedup_from, if_pos ht, ih]

lemma dedup_from_replicate_new (seen : List ℚ) (t : ℚ) (k : ℕ) (rest : List ℚ)
    (ht : t ∉ seen) (hk : 0 < k) :
    dedup_from seen (List.replicate k t ++ rest)
      = t :: dedup_from (t :: seen) rest := by
  cases k with
  | zero => omega
  | succ k =>
    rw [List.replicate_succ, List.cons_append, dedup_from, if_neg ht,
      dedup_from_replicate_mem _ t k rest (List.mem_cons_self t seen)]

lemma dedup_from_blocks (ts : List ℚ) (k : ℚ → ℕ) (seen : List ℚ)
    (hnd : ts.Nodup) (hdisj : ∀ t ∈ ts, t ∉ seen) :
    dedup_from seen (ts.flatMap (fun t => List.replicate (k t) t))
      = ts.filter (fun t => decide (k t ≠ 0)) := by
  induction ts generalizing seen with
  | nil => rfl
  | cons t ts ih =>
    rw [List.flatMap_cons]
    rw [List.nodup_cons] at hnd
    rcases Nat.eq_zero_or_pos (k t) with h0 | hpos
    · rw [h0, List.replicate_zero, List.nil_append]
      rw [ih seen hnd.2 (fun u hu => hdisj u (List.mem_cons_of_mem t hu))]
      rw [List.filter_cons_of_neg (by simp [h0])]
    · rw [dedup_from_replicate_new seen t (k t) _ (hdisj t (List.mem_cons_self t ts)) hpos]
      rw [ih (t :: seen) hnd.2 (fun u hu hc => by
        rcases List.mem_cons.1 hc with rfl | h2
        · exact hnd.1 hu
        · exact hdisj u (List.mem_cons_of_mem t hu) h2)]
      rw [List.filter_cons_of_pos (by simp [hpos.ne'])]

lemma densified_map_frame (fs : List Flight) (ts : List ℚ) :
    (densified_data fs ts).map FramePoint.frame
      = ts.flatMap (fun t =>
          List.replicate ((fs.filter (fun f => is_active f t)).length) t) := by
  induction ts with
  | nil => rfl
  | cons t ts ih =>
    rw [densified_cons, List.map_append, ih, List.flatMap_cons]
    congr 1
    rw [List.map_map]
    have : (FramePoint.frame ∘ fun f => mk_frame_point f t) = Function.const Flight t := by
      funext g
      rfl
    rw [this, List.map_const]

lemma unique_frame_stamps_densified (fs : List Flight) (ts : List ℚ) (hnd : ts.Nodup) :
    unique_frame_stamps (densified_data fs ts)
      = ts.filter (fun t => decide ((fs.filter (fun f => is_active f t)).length ≠ 0)) := by
  rw [unique_frame_stamps, densified_map_frame, dedup_first,
    dedup_from_blocks ts _ [] hnd (by simp)]

lemma build_frames_length (dens : List FramePoint) :
    (build_frames dens).length = (unique_frame_stamps dens).length := by
  rw [build_frames, List.length_map, List.enum_length]

lemma build_frames_getD (dens : List FramePoint) (j : ℕ)
    (h : j < (unique_frame_stamps dens).length) :
    (build_frames dens).getD j ⟨0, 0, []⟩
      = ⟨j, (unique_frame_stamps dens).getD j 0,
          dens.filter (fun q => q.frame == (unique_frame_stamps dens).getD j 0)⟩ := by
  have hlen : j < (build_frames dens).length := by
    rw [build_frames_length]
    exact h
  rw [List.getD_eq_getElem _ _ hlen]
  simp only [build_frames, List.getElem_map, List.getElem_enum]
  rw [List.getD_eq_getElem _ _ h]

lemma slider_labels_getD (ts : List ℚ) (n : ℕ) (j : ℕ) (h : j < n) :
    (slider_labels ts n).getD j "" = format_hm (ts.getD j 0) := by
  have hlen : j < (slider_labels ts n).length := by
    rw [slider_labels, List.length_map, List.length_range]
    exact h
  rw [List.getD_eq_getElem _ _ hlen]
  simp only [slider_labels, List.getElem_map, List.getElem_range]

lemma date_range_pairwise (s e : ℚ) (n : ℕ) (hse : 2 ≤ n → s < e) :
    (date_range s e n).Pairwise (· < ·) := by
  unfold date_range
  split
  · simp
  · split
    · simp
    · next h0 h1 =>
      have h2 : 2 ≤ n := by omega
      have hlt := hse h2
      have hd : (0 : ℚ) < (n : ℚ) - 1 := by
        have : (2 : ℚ) ≤ (n : ℚ) := by exact_mod_cast h2
        linarith
      refine List.Pairwise.map _ ?_ (List.pairwise_lt_range n)
      intro a b hab
      have hcast : (a : ℚ) < (b : ℚ) := by exact_mod_cast hab
      have hnum : (e - s) * (a : ℚ) < (e - s) * (b : ℚ) :=
        mul_lt_mul_of_pos_left hcast (by linarith)
      have hdiv : (e - s) * (a : ℚ) / ((n : ℚ) - 1) < (e - s) * (b : ℚ) / ((n : ℚ) - 1) :=
        (div_lt_div_iff_of_pos_right hd).2 hnum
      linarith

lemma timeline_pairwise (fs : List Flight) (fph : ℕ) :
    (animation_timestamps fs fph).Pairwise (· < ·) := by
  unfold animation_timestamps
  rcases hmin : min_departure fs with _ | s
  · simp
  · rcases hmax : max_arrival fs with _ | e
    · simp
    · apply date_range_pairwise
      intro h2
      exact lt_of_two_le_total_frames s e fph h2

/-- C4 (amended): the assembled output contains exactly one frame per
distinct timeline timestamp at which at least one flight is active, in
ascending timestamp order and indexed 0..M-1; the i-th slider label is
the formatted time of the i-th timeline timestamp (indexed by frame
position); when every timeline timestamp has an active flight this
coincides with the claim — one frame per timeline entry with a parallel
label sequence — but not otherwise. -/
theorem frame_assembly_C4 (fs : List Flight) (fph : ℕ) :
    (build_frames (densified_data fs (animation_timestamps fs fph))).length
        = ((animation_timestamps fs fph).filter
            (fun t => decide ((fs.filter (fun f => is_active f t)).length ≠ 0))).length
    ∧ (∀ j, j < (build_frames (densified_data fs (animation_timestamps fs fph))).length →
        ((build_frames (densified_data fs (animation_timestamps fs fph))).getD j
            ⟨0, 0, []⟩).index = j
        ∧ ((build_frames (densified_data fs (animation_timestamps fs fph))).getD j
            ⟨0, 0, []⟩).timestamp
          = ((animation_timestamps fs fph).filter
              (fun t => decide ((fs.filter (fun f => is_active f t)).length ≠ 0))).getD j 0
        ∧ ((build_frames (densified_data fs (animation_timestamps fs fph))).getD j
            ⟨0, 0, []⟩).points
          = (densified_data fs (animation_timestamps fs fph)).filter
              (fun q => q.frame ==
                ((animation_timestamps fs fph).filter
                  (fun t => decide ((fs.filter (fun f => is_active f t)).length ≠ 0))).getD j 0))
    ∧ (∀ i j, i < (build_frames (densified_data fs (animation_timestamps fs fph))).length →
        j < (build_frames (densified_data fs (animation_timestamps fs fph))).length →
        i < j →
        ((build_frames (densified_data fs (animation_timestamps fs fph))).getD i
            ⟨0, 0, []⟩).timestamp
          < ((build_frames (densified_data fs (animation_timestamps fs fph))).getD j
              ⟨0, 0, []⟩).timestamp)
    ∧ (∀ j, j < (build_frames (densified_data fs (animation_timestamps fs fph))).length →
        (slider_labels (animation_timestamps fs fph)
            (build_frames (densified_data fs (animation_timestamps fs fph))).length).getD j ""
          = format_hm ((animation_timestamps fs fph).getD j 0))
    ∧ ((∀ t ∈ animation_timestamps fs fph, ∃ f ∈ fs, is_active f t = true) →
        (build_frames (densified_data fs (animation_timestamps fs fph))).length
            = (animation_timestamps fs fph).length
        ∧ ∀ j, j < (build_frames (densified_data fs (animation_timestamps fs fph))).length →
            ((build_frames (densified_data fs (animation_timestamps fs fph))).getD j
                ⟨0, 0, []⟩).timestamp
              = (animation_timestamps fs fph).getD j 0) := by
  have hnd := timeline_nodup fs fph
  have hpw := timeline_pairwise fs fph
  have hstamps := unique_frame_stamps_densified fs (animation_timestamps fs fph) hnd
  have hlen : (build_frames (densified_data fs (animation_timestamps fs fph))).length
      = ((animation_timestamps fs fph).filter
          (fun t => decide ((fs.filter (fun f => is_active f t)).length ≠ 0))).length := by
    rw [build_frames_length, hstamps]
  have hget : ∀ j, j < (build_frames (densified_data fs (animation_timestamps fs fph))).length →
      (build_frames (densified_data fs (animation_timestamps fs fph))).getD j ⟨0, 0, []⟩
        = ⟨j, ((animation_timestamps fs fph).filter
              (fun t => decide ((fs.filter (fun f => is_active f t)).length ≠ 0))).getD j 0,
            (densified_data fs (animation_timestamps fs fph)).filter
              (fun q => q.frame ==
                ((animation_timestamps fs fph).filter
                  (fun t => decide ((fs.filter (fun f => is_active f t)).length ≠ 0))).getD j 0)⟩ := by
    intro j hj
    rw [build_frames_length] at hj
    rw [build_frames_getD _ j hj, hstamps]
  refine ⟨hlen, ?_, ?_, ?_, ?_⟩
  · intro j hj
    rw [hget j hj]
    exact ⟨rfl, rfl, rfl⟩
  · intro i j hi hj hij
    rw [hget i hi, hget j hj]
    have hpf : ((animation_timestamps fs fph).filter
        (fun t => decide ((fs.filter (fun f => is_active f t)).length ≠ 0))).Pairwise (· < ·) :=
      List.Pairwise.filter _ hpw
    rw [List.pairwise_iff_getElem] at hpf
    rw [hlen] at hi hj
    have := hpf i j hi hj hij
    rw [List.getD_eq_getElem _ _ hi, List.getD_eq_getElem _ _ hj]
    exact this
  · intro j hj
    exact slider_labels_getD _ _ j hj
  · intro hall
    have hfe : (animation_timestamps fs fph).filter
        (fun t => decide ((fs.filter (fun f => is_active f t)).length ≠ 0))
        = animation_timestamps fs fph := by
      rw [List.filter_eq_self]
      intro t ht
      rcases hall t ht with ⟨f, hf, hact⟩
      have hmem : f ∈ fs.filter (fun g => is_active g t) := List.mem_filter.2 ⟨hf, hact⟩
      have hne : fs.filter (fun g => is_active g t) ≠ [] := List.ne_nil_of_mem hmem
      simp only [ne_eq, decide_eq_true_eq]
      intro hc
      exact hne (List.eq_nil_of_length_eq_zero hc)
    constructor
    · rw [hlen, hfe]
    · intro j hj
      rw [hget j hj, hfe]

/-- C4 witness: for the lone template flight every timeline timestamp
has an active flight, so there is exactly one frame per timeline entry. -/
theorem frame_assembly_C4_witness :
    (∀ t ∈ animation_timestamps [exampleFlight] 30,
        ∃ f ∈ [exampleFlight], is_active f t = true)
    ∧ (build_frames (densified_data [exampleFlight]
          (animation_timestamps [exampleFlight] 30))).length
        = (animation_timestamps [exampleFlight] 30).length :=
  ⟨by decide, ((frame_assembly_C4 [exampleFlight] 30).2.2.2.2 (by decide)).1⟩

/-- C4 counterexample: two instantaneous flights at 0 s and 7200 s
yield a 60-entry timeline but only two frames (no flight is active at
the 58 interior timestamps), and the second slider label shows the
formatted time of the second timeline timestamp ("00:02"), not of the
second frame's own timestamp 7200 s ("02:00") - refuting both the
one-frame-per-timeline-entry part and the parallel-labels part of the
claim. -/
theorem frame_assembly_C4_counterexample :
    (animation_timestamps [instantA, instantB] 30).length = 60
    ∧ (build_frames (densified_data [instantA, instantB]
          (animation_timestamps [instantA, instantB] 30))).length = 2
    ∧ ((build_frames (densified_data [instantA, instantB]
          (animation_timestamps [instantA, instantB] 30))).getD 1 ⟨0, 0, []⟩).timestamp = 7200
    ∧ (slider_labels (animation_timestamps [instantA, instantB] 30)
          (build_frames (densified_data [instantA, instantB]
            (animation_timestamps [instantA, instantB] 30))).length).getD 1 "" = "00:02"
    ∧ format_hm 7200 = "02:00"
    ∧ ¬((2 : ℕ) = 60)
    ∧ ¬(("00:02" : String) = "02:00") := by decide

lemma fmod_nonneg (a b : ℝ) (hb : 0 < b) : 0 ≤ fmod a b := by
  rw [fmod]
  have h1 : ((⌊a / b⌋ : ℝ)) ≤ a / b := Int.floor_le _
  have h2 : b * ((⌊a / b⌋ : ℝ)) ≤ b * (a / b) := mul_le_mul_of_nonneg_left h1 hb.le
  have h3 : b * (a / b) = a := by field_simp
  linarith

lemma fmod_lt (a b : ℝ) (hb : 0 < b) : fmod a b < b := by
  rw [fmod]
  have h1 : a / b < (⌊a / b⌋ : ℝ) + 1 := Int.lt_floor_add_one _
  have h2 : b * (a / b) < b * ((⌊a / b⌋ : ℝ) + 1) := mul_lt_mul_of_pos_left h1 hb
  have h3 : b * (a / b) = a := by field_simp
  have h4 : b * ((⌊a / b⌋ : ℝ) + 1) = b * (⌊a / b⌋ : ℝ) + b := by ring
  linarith

lemma calculate_bearing_bounds (lat1 lon1 lat2 lon2 : ℝ) :
    0 ≤ calculate_bearing lat1 lon1 lat2 lon2
    ∧ calculate_bearing lat1 lon1 lat2 lon2 < 360 := by
  have h360 : (0 : ℝ) < 360 := by norm_num
  exact ⟨fmod_nonneg _ _ h360, fmod_lt _ _ h360⟩

lemma find_of_unique_id (l : List Flight) (f : Flight) (hf : f ∈ l)
    (huniq : ∀ g ∈ l, g.flight_id = f.flight_id → g = f) :
    l.find? (fun g => g.flight_id == f.flight_id) = some f := by
  induction l with
  | nil => cases hf
  | cons g l ih =>
    by_cases h : (g.flight_id == f.flight_id) = true
    · rw [@List.find?_cons_of_pos Flight (fun g => g.flight_id == f.flight_id) g l h]
      rw [huniq g (List.mem_cons_self g l) (beq_iff_eq.1 h)]
    · rw [@List.find?_cons_of_neg Flight (fun g => g.flight_id == f.flight_id) g l h]
      apply ih
      · rcases List.mem_cons.1 hf with rfl | h2
        · exact absurd (by simp) h
        · exact h2
      · intro g' hg' he
        exact huniq g' (List.mem_cons_of_mem g hg') he

lemma bearing_map_eq (fs : List Flight) (f : Flight) (hf : f ∈ fs)
    (hu : (fs.map Flight.flight_id).Nodup) :
    bearing_map fs f.flight_id
      = some (calculate_bearing (f.origin_lat : ℝ) (f.origin_lon : ℝ)
          (f.dest_lat : ℝ) (f.dest_lon : ℝ)) := by
  rw [bearing_map]
  have hrev : (fs.reverse.map Flight.flight_id).Nodup := by
    rw [List.map_reverse]
    exact List.nodup_reverse.2 hu
  have hfr : f ∈ fs.reverse := List.mem_reverse.2 hf
  have huniq : ∀ g ∈ fs.reverse, g.flight_id = f.flight_id → g = f :=
    fun g hg he => List.inj_on_of_nodup_map hrev hg hfr he
  rw [find_of_unique_id fs.reverse f hfr huniq]
  rfl

lemma radians_zero : radians 0 = 0 := by
  rw [radians]
  ring

lemma radians_ninety : radians 90 = Real.pi / 2 := by
  rw [radians]
  ring

lemma atan2_one_zero : atan2 1 0 = Real.pi / 2 := by
  rw [atan2]
  have h : ((0 : ℝ) : ℂ) + ((1 : ℝ) : ℂ) * Complex.I = Complex.I := by
    push_cast
    ring
  rw [h, Complex.arg_I]

lemma atan2_zero_one : atan2 0 1 = 0 := by
  rw [atan2]
  have h : ((1 : ℝ) : ℂ) + ((0 : ℝ) : ℂ) * Complex.I = 1 := by
    push_cast
    ring
  rw [h, Complex.arg_one]

lemma to_degrees_pi_div_two : to_degrees (Real.pi / 2) = 90 := by
  rw [to_degrees]
  have hpi := Real.pi_ne_zero
  field_simp
  ring

lemma to_degrees_zero : to_degrees 0 = 0 := by
  rw [to_degrees]
  ring

lemma fmod_ninety_plus : fmod (90 + 360) 360 = 90 := by
  rw [fmod]
  have h : ⌊(90 + 360 : ℝ) / 360⌋ = 1 := by
    apply Int.floor_eq_iff.2
    constructor <;> norm_num
  rw [h]
  norm_num

lemma fmod_zero_plus : fmod (0 + 360) 360 = 0 := by
  rw [fmod]
  have h : ⌊(0 + 360 : ℝ) / 360⌋ = 1 := by
    apply Int.floor_eq_iff.2
    constructor <;> norm_num
  rw [h]
  norm_num

lemma bearing_east : calculate_bearing 0 0 0 90 = 90 := by
  have h1 : calculate_bearing 0 0 0 90
      = fmod (to_degrees (atan2
          (Real.sin (radians 90 - radians 0) * Real.cos (radians 0))
          (Real.cos (radians 0) * Real.sin (radians 0)
            - Real.sin (radians 0) * Real.cos (radians 0)
              * Real.cos (radians 90 - radians 0))) + 360) 360 := rfl
  rw [h1, radians_zero, radians_ninety, sub_zero]
  simp only [Real.sin_pi_div_two, Real.cos_zero, Real.sin_zero, Real.cos_pi_div_two,
    mul_one, one_mul, mul_zero, zero_mul, sub_zero]
  rw [atan2_one_zero, to_degrees_pi_div_two, fmod_ninety_plus]

lemma bearing_north : calculate_bearing 0 0 90 0 = 0 := by
  have h1 : calculate_bearing 0 0 90 0
      = fmod (to_degrees (atan2
          (Real.sin (radians 0 - radians 0) * Real.cos (radians 90))
          (Real.cos (radians 0) * Real.sin (radians 90)
            - Real.sin (radians 0) * Real.cos (radians 90)
              * Real.cos (radians 0 - radians 0))) + 360) 360 := rfl
  rw [h1, radians_zero, radians_ninety, sub_zero]
  simp only [Real.sin_pi_div_two, Real.cos_zero, Real.sin_zero, Real.cos_pi_div_two,
    mul_one, one_mul, mul_zero, zero_mul, sub_zero]
  rw [atan2_zero_one, to_degrees_zero, fmod_zero_plus]

/-- C6: the per-flight heading is the spherical forward azimuth
converted to degrees and normalized into [0, 360); it is stored once
per flight id in the bearing map, and (with unique ids) every frame
point of a flight carries exactly that constant bearing; the worked
examples give 90 degrees due east and 0 degrees due north. -/
theorem bearing_C6 (fs : List Flight) (f : Flight) (hf : f ∈ fs)
    (hu : (fs.map Flight.flight_id).Nodup) :
    (calculate_bearing (f.origin_lat : ℝ) (f.origin_lon : ℝ) (f.dest_lat : ℝ) (f.dest_lon : ℝ)
        = fmod (to_degrees (atan2
            (Real.sin (radians (f.dest_lon : ℝ) - radians (f.origin_lon : ℝ))
              * Real.cos (radians (f.dest_lat : ℝ)))
            (Real.cos (radians (f.origin_lat : ℝ)) * Real.sin (radians (f.dest_lat : ℝ))
              - Real.sin (radians (f.origin_lat : ℝ)) * Real.cos (radians (f.dest_lat : ℝ))
                * Real.cos (radians (f.dest_lon : ℝ) - radians (f.origin_lon : ℝ)))) + 360) 360)
    ∧ (0 ≤ calculate_bearing (f.origin_lat : ℝ) (f.origin_lon : ℝ)
          (f.dest_lat : ℝ) (f.dest_lon : ℝ)
        ∧ calculate_bearing (f.origin_lat : ℝ) (f.origin_lon : ℝ)
            (f.dest_lat : ℝ) (f.dest_lon : ℝ) < 360)
    ∧ bearing_map fs f.flight_id
        = some (calculate_bearing (f.origin_lat : ℝ) (f.origin_lon : ℝ)
            (f.dest_lat : ℝ) (f.dest_lon : ℝ))
    ∧ (∀ ts : List ℚ, ∀ p ∈ densified_data fs ts, p.flight_id = f.flight_id →
        point_bearing fs p
          = some (calculate_bearing (f.origin_lat : ℝ) (f.origin_lon : ℝ)
              (f.dest_lat : ℝ) (f.dest_lon : ℝ)))
    ∧ calculate_bearing 0 0 0 90 = 90
    ∧ calculate_bearing 0 0 90 0 = 0 := by
  refine ⟨rfl, calculate_bearing_bounds _ _ _ _, bearing_map_eq fs f hf hu,
    ?_, bearing_east, bearing_north⟩
  intro ts p _ hp
  rw [point_bearing, hp]
  exact bearing_map_eq fs f hf hu

/-- C6 witness: the theorem applied to the template flight. -/
theorem bearing_C6_witness :
    exampleFlight ∈ [exampleFlight]
    ∧ ([exampleFlight].map Flight.flight_id).Nodup
    ∧ bearing_map [exampleFlight] exampleFlight.flight_id
        = some (calculate_bearing (exampleFlight.origin_lat : ℝ)
            (exampleFlight.origin_lon : ℝ)
            (exampleFlight.dest_lat : ℝ) (exampleFlight.dest_lon : ℝ)) :=
  ⟨by decide, by decide,
   (bearing_C6 [exampleFlight] exampleFlight (by decide) (by decide)).2.2.1⟩
